import Mathlib

/-!
Verification of the autogen-agent-framework tutorial material.

The repository consists of three tutorial notebooks:
  * an Azure Container Apps dynamic-sessions code-executor guide,
  * a `SelectorGroupChat` tutorial (which defines the concrete Python tools
    `search_web_tool` and `percentage_change_tool`),
  * a state save/load tutorial for agents and teams.

The two tool functions are embedded directly from their Python source.
The executor, group-chat and state-management operations are implemented in
an external library that is not part of the source tree; those operations
are modelled from the specification's words (their definitions carry a
doc comment starting with `Modelled from the spec:`).
-/

/-- Python substring-membership helper: does the character list `sub` occur
at the start of `s`?  Mirrors the prefix test underlying Python's `in`. -/
def startsWithList : List Char → List Char → Bool
  | [], _ => true
  | _ :: _, [] => false
  | a :: as, b :: bs => a == b && startsWithList as bs

/-- Python substring membership on character lists: `sub` occurs contiguously
somewhere inside `s`.  Mirrors Python's `sub in s` on strings. -/
def containsList : List Char → List Char → Bool
  | sub, [] => sub.isEmpty
  | sub, c :: rest => startsWithList sub (c :: rest) || containsList sub rest

/-- Python's `sub in s` substring test, lifted to `String`. -/
def substrIn (sub s : String) : Bool :=
  containsList sub.data s.data

/-- The fixed Miami Heat points listing returned by `search_web_tool` for
queries mentioning the 2006-2007 season (the Python triple-quoted string). -/
def heatPoints20062007 : String :=
  "Here are the total points scored by Miami Heat players in the 2006-2007 season:\n        Udonis Haslem: 844 points\n        Dwayne Wade: 1397 points\n        James Posey: 550 points\n        ...\n        "

/-- The fixed answer for 2007-2008 rebounds returned by `search_web_tool`. -/
def rebounds20072008 : String :=
  "The number of total rebounds for Dwayne Wade in the Miami Heat season 2007-2008 is 214."

/-- The fixed answer for 2008-2009 rebounds returned by `search_web_tool`. -/
def rebounds20082009 : String :=
  "The number of total rebounds for Dwayne Wade in the Miami Heat season 2008-2009 is 398."

/-- Direct embedding of the notebook's mock `search_web_tool(query)`:
an `if`/`elif` chain on substring membership of the season strings. -/
def search_web_tool (query : String) : String :=
  if substrIn "2006-2007" query then heatPoints20062007
  else if substrIn "2007-2008" query then rebounds20072008
  else if substrIn "2008-2009" query then rebounds20082009
  else "No data found."

/-- Direct embedding of the notebook's `percentage_change_tool(start, end)`,
`((end - start) / start) * 100`, in exact rational arithmetic.  Python raises
`ZeroDivisionError` when `start = 0`; that fallible case is `none`. -/
def percentage_change_tool (s e : ℚ) : Option ℚ :=
  if s = 0 then none else some (((e - s) / s) * 100)

/-- Modelled from the spec: the `AzureContainerCodeExecutor` implementation is
not in the source tree; the notebook exercises Python code blocks that assign
a variable, print a variable, write a file in the session working directory
`/mnt/data`, or open a file and print its contents.  These four statement
forms model the submitted code. -/
inductive PyStmt where
  | assign (x v : String)
  | printVar (x : String)
  | writeFile (f c : String)
  | readPrintFile (f : String)

/-- Association-list lookup, first binding wins (models a Python namespace or
directory listing keyed by name). -/
def lookupAssoc : List (String × String) → String → Option String
  | [], _ => none
  | (k, v) :: rest, x => if k = x then some v else lookupAssoc rest x

/-- Modelled from the spec: a session is "a remote execution context
maintained by an external hosted service, identified by an opaque identifier,
persisting in-memory variables until explicitly restarted".  `sessionId` is
the opaque identifier, `vars` the in-memory variables, `remoteFiles` the
session's `/mnt/data` directory, and `workDir` the executor's local working
directory. -/
structure ExecutorState where
  sessionId : Nat
  vars : List (String × String)
  remoteFiles : List (String × String)
  workDir : List (String × String)

/-- The result of one `execute_code_blocks` call: the exit code and the
captured output, as asserted on in the notebook. -/
structure CodeResult where
  exit_code : Nat
  output : String

/-- Modelled from the spec: sequential execution of the submitted statements
in the session.  A reference to an unbound variable stops execution with a
nonzero exit code and a "NameError" message; opening a missing file stops
with a "FileNotFoundError" message (the spec records only "example exit codes
and exception-name substrings returned by the external execution service"). -/
def execStmts : ExecutorState → List PyStmt → ExecutorState × CodeResult
  | st, [] => (st, { exit_code := 0, output := "" })
  | st, PyStmt.assign x v :: rest =>
      execStmts { st with vars := (x, v) :: st.vars } rest
  | st, PyStmt.printVar x :: rest =>
      match lookupAssoc st.vars x with
      | some v =>
          let r := execStmts st rest
          (r.1, { exit_code := r.2.exit_code, output := v ++ ("\n" ++ r.2.output) })
      | none =>
          (st, { exit_code := 1,
                 output := "NameError" ++ (": name " ++ (x ++ " is not defined")) })
  | st, PyStmt.writeFile f c :: rest =>
      execStmts { st with remoteFiles := (f, c) :: st.remoteFiles } rest
  | st, PyStmt.readPrintFile f :: rest =>
      match lookupAssoc st.remoteFiles f with
      | some c =>
          let r := execStmts st rest
          (r.1, { exit_code := r.2.exit_code, output := c ++ ("\n" ++ r.2.output) })
      | none =>
          (st, { exit_code := 1,
                 output := "FileNotFoundError" ++ (": No such file or directory: " ++ f) })

/-- Modelled from the spec: `execute_code_blocks` runs the submitted code in
the executor's current session and returns the updated executor together with
a `CodeResult`. -/
def execute_code_blocks (st : ExecutorState) (code : List PyStmt) :
    ExecutorState × CodeResult :=
  execStmts st code

/-- The name of the first exception the submitted code raises at runtime in
the given session, or `none` when the code runs without raising.  Mirrors the
same small-step state updates as `execStmts`. -/
def firstError : ExecutorState → List PyStmt → Option String
  | _, [] => none
  | st, PyStmt.assign x v :: rest =>
      firstError { st with vars := (x, v) :: st.vars } rest
  | st, PyStmt.printVar x :: rest =>
      match lookupAssoc st.vars x with
      | some _ => firstError st rest
      | none => some "NameError"
  | st, PyStmt.writeFile f c :: rest =>
      firstError { st with remoteFiles := (f, c) :: st.remoteFiles } rest
  | st, PyStmt.readPrintFile f :: rest =>
      match lookupAssoc st.remoteFiles f with
      | some _ => firstError st rest
      | none => some "FileNotFoundError"

/-- Modelled from the spec: `restart` abandons the current session and opens
a fresh one ("persisting in-memory variables until explicitly restarted";
"Previous sessions cannot be reused").  The new session has a new identifier
and no in-memory variables or session files. -/
def restart (st : ExecutorState) : ExecutorState :=
  { sessionId := st.sessionId + 1, vars := [], remoteFiles := [],
    workDir := st.workDir }

/-- Modelled from the spec: `upload_files` copies the named files from the
executor's local working directory into the session's `/mnt/data` directory. -/
def upload_files (st : ExecutorState) (names : List String) : ExecutorState :=
  { st with remoteFiles :=
      (names.filterMap fun n => (lookupAssoc st.workDir n).map fun c => (n, c))
        ++ st.remoteFiles }

/-- Modelled from the spec: `get_file_list` lists the names of the files in
the session's `/mnt/data` directory. -/
def get_file_list (st : ExecutorState) : List String :=
  st.remoteFiles.map Prod.fst

/-- Modelled from the spec: `download_files` copies the named files from the
session's `/mnt/data` directory into the executor's local working directory. -/
def download_files (st : ExecutorState) (names : List String) : ExecutorState :=
  { st with workDir :=
      (names.filterMap fun n => (lookupAssoc st.remoteFiles n).map fun c => (n, c))
        ++ st.workDir }

/-- Run a sequence of `execute_code_blocks` calls on the same executor,
keeping only the evolving executor state. -/
def runProgs (st : ExecutorState) (progs : List (List PyStmt)) : ExecutorState :=
  progs.foldl (fun s p => (execute_code_blocks s p).1) st

/-- Modelled from the spec: an entry of an agent's model context or of a
team's message thread, as displayed in the example state dumps (`content`,
`source` and a `type` tag, here `mtype`). -/
structure LlmMessage where
  content : String
  source : String
  mtype : String
deriving DecidableEq

/-- The message recorded for a user-supplied task or query. -/
def userMessage (content : String) : LlmMessage :=
  { content := content, source := "user", mtype := "UserMessage" }

/-- Modelled from the spec: an `AssistantAgent` from the external library,
with its `name` and `description` attributes, its system message, its model
context `llm_messages` (the state dumps show this is the agent's whole
saved state), and the external model client abstracted as a function from
the full context to the reply text. -/
structure Agent where
  name : String
  description : String
  system_message : String
  llm_messages : List LlmMessage
  respond : List LlmMessage → String

/-- Modelled from the spec: the serialized `AssistantAgentState`; the dump
shows it carries exactly the agent's `llm_messages`. -/
structure AgentState where
  llm_messages : List LlmMessage

/-- Modelled from the spec: `save_state` on an agent captures its model
context. -/
def agent_save_state (a : Agent) : AgentState :=
  { llm_messages := a.llm_messages }

/-- Modelled from the spec: `load_state` on an agent replaces its model
context with the saved one. -/
def agent_load_state (a : Agent) (s : AgentState) : Agent :=
  { a with llm_messages := s.llm_messages }

/-- A fresh instance of the same agent configuration: same name, description,
system message and model client, but an empty model context (as constructed
anew in the notebook before `load_state`). -/
def clearedAgent (a : Agent) : Agent :=
  { a with llm_messages := [] }

/-- Modelled from the spec: `on_messages` sends a user query to the agent;
the reply is produced by the model from the agent's context extended with the
query, and both are appended to the agent's context. -/
def on_messages (a : Agent) (q : String) : String × Agent :=
  let ctx := a.llm_messages ++ [userMessage q]
  let ans := a.respond ctx
  (ans, { a with llm_messages :=
            ctx ++ [{ content := ans, source := a.name, mtype := "AssistantMessage" }] })

/-- Modelled from the spec: a `RoundRobinGroupChat` team: its participants,
the manager's message thread, the round-robin `next_speaker_index` (as in
the `RoundRobinManagerState` dump), and the `MaxMessageTermination` bound. -/
structure Team where
  participants : List Agent
  message_thread : List LlmMessage
  next_speaker_index : Nat
  max_messages : Nat

/-- Modelled from the spec: the serialized `TeamState`: the states of all
the agents in the team together with the manager's thread and round-robin
position. -/
structure TeamState where
  agent_states : List AgentState
  message_thread : List LlmMessage
  next_speaker_index : Nat

/-- Modelled from the spec: `save_state` on a team saves the state of all
the agents in the team, plus the manager state. -/
def team_save_state (t : Team) : TeamState :=
  { agent_states := t.participants.map agent_save_state,
    message_thread := t.message_thread,
    next_speaker_index := t.next_speaker_index }

/-- Modelled from the spec: `load_state` on a team restores each agent's
state and the manager state. -/
def team_load_state (t : Team) (s : TeamState) : Team :=
  { t with participants := List.zipWith agent_load_state t.participants s.agent_states,
           message_thread := s.message_thread,
           next_speaker_index := s.next_speaker_index }

/-- A team freshly instantiated from the same participant configurations:
every agent has an empty context and the manager starts from scratch. -/
def fresh_team (t : Team) : Team :=
  { participants := t.participants.map clearedAgent,
    message_thread := [],
    next_speaker_index := 0,
    max_messages := t.max_messages }

/-- Modelled from the spec: `reset` on a team clears the conversation
context of the team and of all its participants. -/
def team_reset (t : Team) : Team :=
  { participants := t.participants.map clearedAgent,
    message_thread := [],
    next_speaker_index := 0,
    max_messages := t.max_messages }

/-- Modelled from the spec: the round-robin team run loop.  While the
termination bound is not reached, the next participant in round-robin order
responds to the shared thread, its reply is broadcast (appended to the
thread) and recorded in its own context. -/
def team_run : Nat → Team → List LlmMessage → List LlmMessage × Team
  | 0, t, thread => (thread, t)
  | Nat.succ fuel, t, thread =>
    if t.max_messages ≤ thread.length then (thread, t)
    else
      match t.participants[t.next_speaker_index % t.participants.length]? with
      | none => (thread, t)
      | some a =>
        let ans := a.respond (a.llm_messages ++ thread)
        let msg : LlmMessage := { content := ans, source := a.name, mtype := "TextMessage" }
        let a2 := { a with llm_messages := a.llm_messages ++ thread ++ [msg] }
        let idx := t.next_speaker_index % t.participants.length
        let t2 : Team :=
          { participants := t.participants.set idx a2,
            message_thread := thread ++ [msg],
            next_speaker_index := t.next_speaker_index + 1,
            max_messages := t.max_messages }
        team_run fuel t2 (thread ++ [msg])

/-- Modelled from the spec: `run` on a team starts the loop from the task
message. -/
def run_team (t : Team) (task : String) (fuel : Nat) : List LlmMessage × Team :=
  team_run fuel t [userMessage task]

/-- Modelled from the spec: a `SelectorGroupChat`: the fixed participant
set, the model-based selection (a function of the conversation history and
the participants' name and description attributes, reduced modulo the
participant count so a participant is always designated), and the optional
custom `selector_func`. -/
structure SelectorGroupChat where
  participants : List Agent
  modelSelect : List LlmMessage → List (String × String) → Nat
  selector_func : Option (List LlmMessage → Option String)

/-- The name and description attributes the selection model consults. -/
def nameDescs (ps : List Agent) : List (String × String) :=
  ps.map fun a => (a.name, a.description)

/-- First participant with the given name, if any. -/
def findAgent : List Agent → String → Option Agent
  | [], _ => none
  | a :: rest, nm => if a.name = nm then some a else findAgent rest nm

/-- Modelled from the spec: the default model-based speaker selection among
the fixed participant set. -/
def defaultSelect (g : SelectorGroupChat) (thread : List LlmMessage) : Option Agent :=
  g.participants[g.modelSelect thread (nameDescs g.participants) % g.participants.length]?

/-- Modelled from the spec: speaker selection.  A custom `selector_func`, if
present, overrides the model-based selection; returning `None` falls back to
the default model-based selection. -/
def selectSpeaker (g : SelectorGroupChat) (thread : List LlmMessage) : Option Agent :=
  match g.selector_func with
  | some f =>
    match f thread with
    | some nm => findAgent g.participants nm
    | none => defaultSelect g thread
  | none => defaultSelect g thread

/-- The result a finished team run returns: the conversation history from
this task and the stop reason. -/
structure TaskResult where
  messages : List LlmMessage
  stop_reason : String

/-- Modelled from the spec: the `SelectorGroupChat` run cycle.  Each round a
speaker is selected, its response is broadcast (appended to the shared
thread), and the termination condition is checked; when it holds the run
returns a `TaskResult` with the conversation history.  `fuel` bounds the
number of rounds; a run that never meets the termination condition (or whose
selection fails) yields `none`. -/
def selectorLoop (g : SelectorGroupChat) (term : List LlmMessage → Bool) :
    Nat → List LlmMessage → Option TaskResult
  | 0, _ => none
  | Nat.succ fuel, thread =>
    match selectSpeaker g thread with
    | none => none
    | some a =>
      let thread2 := thread ++
        [{ content := a.respond thread, source := a.name, mtype := "TextMessage" }]
      if term thread2 then
        some { messages := thread2, stop_reason := "termination condition met" }
      else selectorLoop g term fuel thread2

/-- Modelled from the spec: `run`/`run_stream` on a `SelectorGroupChat`
starts the cycle from the task message. -/
def selector_run (g : SelectorGroupChat) (term : List LlmMessage → Bool)
    (fuel : Nat) (task : String) : Option TaskResult :=
  selectorLoop g term fuel [userMessage task]

/-- Direct embedding of the notebook's custom `selector_func`: when the last
message's source is not the planning agent's name, select the planning agent;
otherwise return `None` (which falls back to model-based selection). -/
def planning_selector (p : String) (messages : List LlmMessage) : Option String :=
  match messages.getLast? with
  | some m => if m.source ≠ p then some p else none
  | none => none

/-- Concrete planning agent used in closed-instance checks. -/
def planningW : Agent :=
  { name := "PlanningAgent", description := "planning", system_message := "",
    llm_messages := [], respond := fun _ => "plan" }

/-- Concrete web-search agent used in closed-instance checks. -/
def searchW : Agent :=
  { name := "WebSearchAgent", description := "search", system_message := "",
    llm_messages := [], respond := fun _ => "results" }

/-- Concrete selector group chat used in closed-instance checks. -/
def gW : SelectorGroupChat :=
  { participants := [planningW, searchW],
    modelSelect := fun _ _ => 1,
    selector_func := some (planning_selector "PlanningAgent") }

/-- Concrete termination condition (`MaxMessageTermination 3`) used in
closed-instance checks. -/
def termW : List LlmMessage → Bool :=
  fun th => decide (3 ≤ th.length)

/-- The task result of the concrete selector run used in closed-instance
checks. -/
def resW : TaskResult :=
  { messages :=
      [userMessage "task",
       { content := "plan", source := "PlanningAgent", mtype := "TextMessage" },
       { content := "results", source := "WebSearchAgent", mtype := "TextMessage" }],
    stop_reason := "termination condition met" }

/-- Concrete assistant agent used in closed-instance checks. -/
def agentW : Agent :=
  { name := "assistant_agent", description := "", system_message := "You are a helpful assistant",
    llm_messages := [userMessage "hello"], respond := fun _ => "ok" }

/-- Concrete round-robin team used in closed-instance checks. -/
def teamW : Team :=
  { participants := [agentW], message_thread := [userMessage "hello"],
    next_speaker_index := 0, max_messages := 2 }

-- ===== Theorems =====

example : substrIn "2006-2007" "points in 2006-2007 please" = true := by decide
example : substrIn "2006-2007" "points in 2007-2008 please" = false := by decide
example : search_web_tool "2007-2008" = rebounds20072008 := by rfl

theorem startsWithList_append (l m : List Char) :
    startsWithList l (l ++ m) = true := by
  induction l with
  | nil => rfl
  | cons a as ih => simp [startsWithList, ih]

theorem containsList_append_left (sub m : List Char) :
    containsList sub (sub ++ m) = true := by
  cases sub with
  | nil =>
    cases m with
    | nil => rfl
    | cons c rest => simp [containsList, startsWithList]
  | cons a as =>
    simp only [containsList, Bool.or_eq_true]
    exact Or.inl (startsWithList_append (a :: as) m)

theorem containsList_append_right (sub : List Char) (l m : List Char)
    (h : containsList sub m = true) : containsList sub (l ++ m) = true := by
  induction l with
  | nil => simpa using h
  | cons c cs ih => simp [containsList, ih]

/-- Leading occurrence: `substrIn a (a ++ b) = true`. -/
theorem substrIn_append_left (a b : String) : substrIn a (a ++ b) = true := by
  have : (a ++ b).data = a.data ++ b.data := String.data_append a b
  simp [substrIn, this, containsList_append_left]

/-- Occurrence in a suffix survives prepending: if `substrIn a s` then
`substrIn a (p ++ s)`. -/
theorem substrIn_append_right (a p s : String) (h : substrIn a s = true) :
    substrIn a (p ++ s) = true := by
  have : (p ++ s).data = p.data ++ s.data := String.data_append p s
  simp only [substrIn, this]
  exact containsList_append_right _ _ _ h

/-- C9: `search_web_tool` is a total deterministic function (a Lean function)
returning one of exactly four fixed strings, with branch precedence: a query
containing "2006-2007" always gets the Miami Heat points listing, even when
the other season strings are also present; otherwise "2007-2008" gets the
214-rebounds string; otherwise "2008-2009" gets the 398-rebounds string;
otherwise the result is "No data found.". -/
theorem search_web_tool_branches (q : String) :
    (substrIn "2006-2007" q = true → search_web_tool q = heatPoints20062007) ∧
    (substrIn "2006-2007" q = false → substrIn "2007-2008" q = true →
      search_web_tool q = rebounds20072008) ∧
    (substrIn "2006-2007" q = false → substrIn "2007-2008" q = false →
      substrIn "2008-2009" q = true → search_web_tool q = rebounds20082009) ∧
    (substrIn "2006-2007" q = false → substrIn "2007-2008" q = false →
      substrIn "2008-2009" q = false → search_web_tool q = "No data found.") ∧
    (search_web_tool q = heatPoints20062007 ∨ search_web_tool q = rebounds20072008 ∨
      search_web_tool q = rebounds20082009 ∨ search_web_tool q = "No data found.") := by
  by_cases h1 : substrIn "2006-2007" q = true
  · simp [search_web_tool, h1]
  · by_cases h2 : substrIn "2007-2008" q = true
    · simp [search_web_tool, h1, h2]
    · by_cases h3 : substrIn "2008-2009" q = true
      · simp [search_web_tool, h1, h2, h3]
      · simp [search_web_tool, h1, h2, h3]

/-- Witness for C9: a query containing all three season strings still gets
the 2006-2007 points listing. -/
theorem search_web_tool_branches_witness :
    search_web_tool "stats 2006-2007 and 2007-2008 and 2008-2009" = heatPoints20062007 :=
  (search_web_tool_branches "stats 2006-2007 and 2007-2008 and 2008-2009").1 (by decide)

/-- C10: `percentage_change_tool` computes `((end - start) / start) * 100`
in exact rational arithmetic; at start = 214 and end = 398 the result is
9200/107, and the division fails (Python `ZeroDivisionError`, modelled as
`none`) exactly when start = 0. -/
theorem percentage_change_tool_spec :
    percentage_change_tool 214 398 = some (9200 / 107) ∧
    (∀ s e : ℚ, percentage_change_tool s e = none ↔ s = 0) ∧
    (∀ s e : ℚ, s ≠ 0 → percentage_change_tool s e = some (((e - s) / s) * 100)) := by
  refine ⟨by norm_num [percentage_change_tool], ?_, ?_⟩
  · intro s e
    by_cases h : s = 0 <;> simp [percentage_change_tool, h]
  · intro s e h
    simp [percentage_change_tool, h]

/-- Witness for C10: at start = 2, end = 3 the tool returns the exact formula
value 50. -/
theorem percentage_change_tool_spec_witness :
    percentage_change_tool 2 3 = some (((3 - 2) / 2) * 100) :=
  percentage_change_tool_spec.2.2 2 3 (by norm_num)

/-- Executing code never unbinds a session variable: assignments only add
bindings and errors abort without clearing the namespace. -/
theorem execStmts_vars_isSome (code : List PyStmt) :
    ∀ (st : ExecutorState) (x : String),
      (lookupAssoc st.vars x).isSome = true →
      (lookupAssoc (execStmts st code).1.vars x).isSome = true := by
  induction code with
  | nil => intro st x h; exact h
  | cons stmt rest ih =>
    intro st x h
    cases stmt with
    | assign y v =>
      apply ih
      simp only [lookupAssoc]
      by_cases hxy : y = x
      · simp [hxy]
      · simpa [hxy] using h
    | printVar y =>
      cases hm : lookupAssoc st.vars y with
      | some w => simpa [execStmts, hm] using ih st x h
      | none => simpa [execStmts, hm] using h
    | writeFile f c =>
      apply ih
      simpa using h
    | readPrintFile f =>
      cases hm : lookupAssoc st.remoteFiles f with
      | some w => simpa [execStmts, hm] using ih st x h
      | none => simpa [execStmts, hm] using h

/-- Variable bindings survive any number of later `execute_code_blocks`
calls on the same executor. -/
theorem runProgs_vars_isSome (progs : List (List PyStmt)) :
    ∀ (st : ExecutorState) (x : String),
      (lookupAssoc st.vars x).isSome = true →
      (lookupAssoc (runProgs st progs).vars x).isSome = true := by
  induction progs with
  | nil => intro st x h; exact h
  | cons p rest ih =>
    intro st x h
    exact ih _ x (execStmts_vars_isSome p st x h)

/-- C2: a variable assigned by one `execute_code_blocks` call stays visible to
every later call on the same executor until `restart`; after `restart`,
referencing it exits nonzero with "NameError" in the output, and the new
session has a different identifier (previous sessions cannot be reused). -/
theorem executor_session_until_restart (st : ExecutorState) (x v : String)
    (progs : List (List PyStmt)) :
    (lookupAssoc (runProgs (execute_code_blocks st [PyStmt.assign x v]).1
        progs).vars x).isSome = true ∧
    (execute_code_blocks (runProgs (execute_code_blocks st [PyStmt.assign x v]).1
        progs) [PyStmt.printVar x]).2.exit_code = 0 ∧
    (execute_code_blocks (restart (runProgs (execute_code_blocks st
        [PyStmt.assign x v]).1 progs)) [PyStmt.printVar x]).2.exit_code ≠ 0 ∧
    substrIn "NameError" ((execute_code_blocks (restart (runProgs
        (execute_code_blocks st [PyStmt.assign x v]).1 progs))
        [PyStmt.printVar x]).2.output) = true ∧
    (restart (runProgs (execute_code_blocks st [PyStmt.assign x v]).1
        progs)).sessionId ≠ (runProgs (execute_code_blocks st
        [PyStmt.assign x v]).1 progs).sessionId := by
  have hassign : (execute_code_blocks st [PyStmt.assign x v]).1 =
      { st with vars := (x, v) :: st.vars } := by
    simp [execute_code_blocks, execStmts]
  have hbound : (lookupAssoc (runProgs (execute_code_blocks st
      [PyStmt.assign x v]).1 progs).vars x).isSome = true := by
    apply runProgs_vars_isSome
    simp [hassign, lookupAssoc]
  refine ⟨hbound, ?_, ?_, ?_, ?_⟩
  · obtain ⟨w, hw⟩ := Option.isSome_iff_exists.mp hbound
    rw [hassign] at hw
    simp [execute_code_blocks, execStmts, hw]
  · simp [execute_code_blocks, execStmts, restart, lookupAssoc]
  · simpa [execute_code_blocks, execStmts, restart, lookupAssoc] using
      substrIn_append_left "NameError" (": name " ++ (x ++ " is not defined"))
  · simp [restart]

/-- C5: an `execute_code_blocks` call exits with code 0 exactly when the
submitted code raises no runtime error, and when the code raises, the exit
code is nonzero and the raised exception's name occurs as a substring of the
output. -/
theorem execute_exit_code_spec (code : List PyStmt) (st : ExecutorState) :
    ((execute_code_blocks st code).2.exit_code = 0 ↔ firstError st code = none) ∧
    (∀ exn, firstError st code = some exn →
      (execute_code_blocks st code).2.exit_code ≠ 0 ∧
      substrIn exn ((execute_code_blocks st code).2.output) = true) := by
  induction code generalizing st with
  | nil =>
    refine ⟨by simp [execute_code_blocks, execStmts, firstError], ?_⟩
    intro exn h
    simp [firstError] at h
  | cons stmt rest ih =>
    cases stmt with
    | assign y v =>
      refine ⟨?_, ?_⟩
      · simpa [execute_code_blocks, execStmts, firstError] using
          (ih { st with vars := (y, v) :: st.vars }).1
      · intro exn h
        simp only [firstError] at h
        simpa [execute_code_blocks, execStmts] using
          (ih { st with vars := (y, v) :: st.vars }).2 exn h
    | printVar y =>
      cases hm : lookupAssoc st.vars y with
      | some w =>
        refine ⟨?_, ?_⟩
        · simpa [execute_code_blocks, execStmts, firstError, hm] using (ih st).1
        · intro exn h
          simp only [firstError, hm] at h
          obtain ⟨hne, hsub⟩ := (ih st).2 exn h
          refine ⟨by simpa [execute_code_blocks, execStmts, hm] using hne, ?_⟩
          simp only [execute_code_blocks, execStmts, hm]
          exact substrIn_append_right exn w _
            (substrIn_append_right exn "\n" _ hsub)
      | none =>
        refine ⟨by simp [execute_code_blocks, execStmts, firstError, hm], ?_⟩
        intro exn h
        simp only [firstError, hm, Option.some.injEq] at h
        subst h
        refine ⟨by simp [execute_code_blocks, execStmts, hm], ?_⟩
        simpa [execute_code_blocks, execStmts, hm] using
          substrIn_append_left "NameError" (": name " ++ (y ++ " is not defined"))
    | writeFile f c =>
      refine ⟨?_, ?_⟩
      · simpa [execute_code_blocks, execStmts, firstError] using
          (ih { st with remoteFiles := (f, c) :: st.remoteFiles }).1
      · intro exn h
        simp only [firstError] at h
        simpa [execute_code_blocks, execStmts] using
          (ih { st with remoteFiles := (f, c) :: st.remoteFiles }).2 exn h
    | readPrintFile f =>
      cases hm : lookupAssoc st.remoteFiles f with
      | some w =>
        refine ⟨?_, ?_⟩
        · simpa [execute_code_blocks, execStmts, firstError, hm] using (ih st).1
        · intro exn h
          simp only [firstError, hm] at h
          obtain ⟨hne, hsub⟩ := (ih st).2 exn h
          refine ⟨by simpa [execute_code_blocks, execStmts, hm] using hne, ?_⟩
          simp only [execute_code_blocks, execStmts, hm]
          exact substrIn_append_right exn w _
            (substrIn_append_right exn "\n" _ hsub)
      | none =>
        refine ⟨by simp [execute_code_blocks, execStmts, firstError, hm], ?_⟩
        intro exn h
        simp only [firstError, hm, Option.some.injEq] at h
        subst h
        refine ⟨by simp [execute_code_blocks, execStmts, hm], ?_⟩
        simpa [execute_code_blocks, execStmts, hm] using
          substrIn_append_left "FileNotFoundError"
            (": No such file or directory: " ++ f)

/-- Witness for C5: printing an unbound variable on a fresh session exits
nonzero with "NameError" in the output. -/
theorem execute_exit_code_spec_witness :
    (execute_code_blocks ⟨0, [], [], []⟩ [PyStmt.printVar "x"]).2.exit_code ≠ 0 ∧
    substrIn "NameError"
      ((execute_code_blocks ⟨0, [], [], []⟩ [PyStmt.printVar "x"]).2.output) = true :=
  (execute_exit_code_spec [PyStmt.printVar "x"] ⟨0, [], [], []⟩).2 "NameError" rfl

/-- C3: a file present in the executor's working directory and passed to
`upload_files` subsequently appears in `get_file_list`, and remote code that
opens and prints it exits with code 0 with the original contents in the
execution output. -/
theorem upload_files_roundtrip (st : ExecutorState) (f c : String)
    (h : lookupAssoc st.workDir f = some c) :
    f ∈ get_file_list (upload_files st [f]) ∧
    (execute_code_blocks (upload_files st [f])
      [PyStmt.readPrintFile f]).2.exit_code = 0 ∧
    substrIn c ((execute_code_blocks (upload_files st [f])
      [PyStmt.readPrintFile f]).2.output) = true := by
  have hrem : (upload_files st [f]).remoteFiles = (f, c) :: st.remoteFiles := by
    simp [upload_files, h]
  have hlook : lookupAssoc (upload_files st [f]).remoteFiles f = some c := by
    simp [hrem, lookupAssoc]
  refine ⟨?_, ?_, ?_⟩
  · simp [get_file_list, hrem]
  · simp [execute_code_blocks, execStmts, hlook]
  · simpa [execute_code_blocks, execStmts, hlook] using
      substrIn_append_left c "\n"

/-- Witness for C3: uploading "test_upload_1.txt" with contents
"test1 contents" from the notebook's working directory round-trips. -/
theorem upload_files_roundtrip_witness :
    "test_upload_1.txt" ∈ get_file_list (upload_files
      ⟨0, [], [], [("test_upload_1.txt", "test1 contents")]⟩
      ["test_upload_1.txt"]) ∧
    (execute_code_blocks (upload_files
      ⟨0, [], [], [("test_upload_1.txt", "test1 contents")]⟩
      ["test_upload_1.txt"])
      [PyStmt.readPrintFile "test_upload_1.txt"]).2.exit_code = 0 ∧
    substrIn "test1 contents" ((execute_code_blocks (upload_files
      ⟨0, [], [], [("test_upload_1.txt", "test1 contents")]⟩
      ["test_upload_1.txt"])
      [PyStmt.readPrintFile "test_upload_1.txt"]).2.output) = true :=
  upload_files_roundtrip ⟨0, [], [], [("test_upload_1.txt", "test1 contents")]⟩
    "test_upload_1.txt" "test1 contents" rfl

/-- C6: a file created by remote code in the session directory `/mnt/data`
appears in `get_file_list`, and after `download_files` it exists in the local
working directory with the contents the remote code wrote. -/
theorem remote_write_download_roundtrip (st : ExecutorState) (f c : String) :
    (execute_code_blocks st [PyStmt.writeFile f c]).2.exit_code = 0 ∧
    f ∈ get_file_list (execute_code_blocks st [PyStmt.writeFile f c]).1 ∧
    lookupAssoc (download_files (execute_code_blocks st
      [PyStmt.writeFile f c]).1 [f]).workDir f = some c := by
  have hst : (execute_code_blocks st [PyStmt.writeFile f c]).1 =
      { st with remoteFiles := (f, c) :: st.remoteFiles } := by
    simp [execute_code_blocks, execStmts]
  refine ⟨by simp [execute_code_blocks, execStmts], ?_, ?_⟩
  · simp [get_file_list, hst]
  · simp [download_files, hst, lookupAssoc]

/-- Loading a saved agent state into a fresh instance of the same agent
reproduces the original agent. -/
theorem agent_load_cleared_save (a : Agent) :
    agent_load_state (clearedAgent a) (agent_save_state a) = a := rfl

/-- Loading each saved agent state into the corresponding fresh agent
reproduces the original participant list. -/
theorem zipWith_load_cleared_save (ps : List Agent) :
    List.zipWith agent_load_state (ps.map clearedAgent) (ps.map agent_save_state) = ps := by
  induction ps with
  | nil => rfl
  | cons a rest ih =>
    simp only [List.map_cons, List.zipWith_cons_cons, ih, agent_load_cleared_save]

/-- C1: `load_state (save_state ())` on a fresh instance restores the
conversation context captured at save time, so a subsequent query is answered
from that restored context (the reply is computed from the same context and
equals the original agent's reply); and `save_state` on a team saves the
state of all the agents in the team, and loading a saved team state into a
freshly instantiated team reproduces the team. -/
theorem save_load_restores_context (a : Agent) (q : String) (t : Team) :
    agent_load_state (clearedAgent a) (agent_save_state a) = a ∧
    (on_messages (agent_load_state (clearedAgent a) (agent_save_state a)) q).1 =
      (on_messages a q).1 ∧
    (team_save_state t).agent_states = t.participants.map agent_save_state ∧
    team_load_state (fresh_team t) (team_save_state t) = t := by
  refine ⟨agent_load_cleared_save a, ?_, rfl, ?_⟩
  · rw [agent_load_cleared_save]
  · cases t with
    | mk ps thread idx mx =>
      have hid : (fun a => agent_load_state (clearedAgent a) (agent_save_state a)) =
          fun a : Agent => a := by
        funext a
        exact agent_load_cleared_save a
      simp [team_load_state, fresh_team, team_save_state, hid]

/-- C7: `reset` clears the team's conversation context: the reset team is
exactly a freshly instantiated team from the same configuration (empty
manager thread, every participant context empty), so a subsequent run
proceeds exactly as on a fresh team, with no reference to any previous
run's conversation. -/
theorem reset_clears_context (t : Team) (task : String) (fuel : Nat) :
    team_reset t = fresh_team t ∧
    (team_reset t).message_thread = [] ∧
    (∀ a ∈ (team_reset t).participants, a.llm_messages = []) ∧
    run_team (team_reset t) task fuel = run_team (fresh_team t) task fuel := by
  refine ⟨rfl, rfl, ?_, rfl⟩
  intro a ha
  simp only [team_reset, List.mem_map] at ha
  obtain ⟨b, -, rfl⟩ := ha
  rfl

/-- Witness for C7: after resetting the concrete one-agent team, its (only)
participant has an empty context. -/
theorem reset_clears_context_witness :
    (clearedAgent agentW).llm_messages = [] :=
  (reset_clears_context teamW "t" 1).2.2.1 (clearedAgent agentW)
    (by simp [team_reset, teamW])

theorem mem_of_getElem?_some {l : List Agent} :
    ∀ {n : Nat} {a : Agent}, l[n]? = some a → a ∈ l := by
  induction l with
  | nil =>
    intro n a h
    simp at h
  | cons b bs ih =>
    intro n a h
    cases n with
    | zero =>
      simp at h
      exact h ▸ List.mem_cons_self b bs
    | succ m =>
      simp only [List.getElem?_cons_succ] at h
      exact List.mem_cons_of_mem b (ih h)

theorem findAgent_eq_some {nm : String} {a : Agent} :
    ∀ {ps : List Agent}, findAgent ps nm = some a → a ∈ ps ∧ a.name = nm := by
  intro ps
  induction ps with
  | nil =>
    intro h
    simp [findAgent] at h
  | cons b bs ih =>
    intro h
    by_cases hb : b.name = nm
    · simp only [findAgent, if_pos hb, Option.some.injEq] at h
      exact ⟨h ▸ List.mem_cons_self b bs, h ▸ hb⟩
    · simp only [findAgent, if_neg hb] at h
      obtain ⟨hm, hn⟩ := ih h
      exact ⟨List.mem_cons_of_mem b hm, hn⟩

/-- Any name a member of the participant set can be resolved, to an agent
bearing that name. -/
theorem findAgent_of_mem {nm : String} :
    ∀ {ps : List Agent}, nm ∈ ps.map Agent.name →
      ∃ a, findAgent ps nm = some a ∧ a.name = nm := by
  intro ps
  induction ps with
  | nil =>
    intro h
    simp at h
  | cons b bs ih =>
    intro h
    by_cases hb : b.name = nm
    · exact ⟨b, by simp [findAgent, hb], hb⟩
    · have : nm ∈ bs.map Agent.name := by
        rcases List.mem_map.mp h with ⟨c, hc, hcn⟩
        rcases List.mem_cons.mp hc with rfl | hc
        · exact absurd hcn hb
        · exact hcn ▸ List.mem_map_of_mem Agent.name hc
      obtain ⟨a, ha, hn⟩ := ih this
      exact ⟨a, by simp [findAgent, hb, ha], hn⟩

theorem selectSpeaker_custom_some {g : SelectorGroupChat}
    {f : List LlmMessage → Option String} {thread : List LlmMessage} {nm : String}
    (h1 : g.selector_func = some f) (h2 : f thread = some nm) :
    selectSpeaker g thread = findAgent g.participants nm := by
  simp only [selectSpeaker, h1, h2]

theorem selectSpeaker_custom_none {g : SelectorGroupChat}
    {f : List LlmMessage → Option String} {thread : List LlmMessage}
    (h1 : g.selector_func = some f) (h2 : f thread = none) :
    selectSpeaker g thread = defaultSelect g thread := by
  simp only [selectSpeaker, h1, h2]

theorem selectSpeaker_default {g : SelectorGroupChat} {thread : List LlmMessage}
    (h1 : g.selector_func = none) :
    selectSpeaker g thread = defaultSelect g thread := by
  simp only [selectSpeaker, h1]

/-- Every speaker the selection designates is a member of the participant
set, whether via the custom selector function or the model-based default. -/
theorem selectSpeaker_mem {g : SelectorGroupChat} {thread : List LlmMessage}
    {a : Agent} (h : selectSpeaker g thread = some a) : a ∈ g.participants := by
  cases hf : g.selector_func with
  | none =>
    rw [selectSpeaker_default hf] at h
    exact mem_of_getElem?_some (by simpa [defaultSelect] using h)
  | some f =>
    cases hn : f thread with
    | some nm =>
      rw [selectSpeaker_custom_some hf hn] at h
      exact (findAgent_eq_some h).1
    | none =>
      rw [selectSpeaker_custom_none hf hn] at h
      exact mem_of_getElem?_some (by simpa [defaultSelect] using h)

/-- Loop invariant of the group-chat cycle: sources stay within the
participant set (or "user"), the head of the history is preserved, and a
normal return happens only when the termination condition holds. -/
theorem selectorLoop_invariant (g : SelectorGroupChat) (term : List LlmMessage → Bool)
    (m0 : LlmMessage) :
    ∀ (fuel : Nat) (thread : List LlmMessage) (res : TaskResult),
      selectorLoop g term fuel thread = some res →
      thread.head? = some m0 →
      (∀ m ∈ thread, m.source = "user" ∨ m.source ∈ g.participants.map Agent.name) →
      (∀ m ∈ res.messages, m.source = "user" ∨ m.source ∈ g.participants.map Agent.name) ∧
        res.messages.head? = some m0 ∧ term res.messages = true := by
  intro fuel
  induction fuel with
  | zero =>
    intro thread res h
    simp [selectorLoop] at h
  | succ fuel ih =>
    intro thread res h hh hP
    cases hs : selectSpeaker g thread with
    | none => simp [selectorLoop, hs] at h
    | some a =>
      simp only [selectorLoop, hs] at h
      have hmem : a.name ∈ g.participants.map Agent.name :=
        List.mem_map_of_mem Agent.name (selectSpeaker_mem hs)
      have hP2 : ∀ m ∈ thread ++
          [{ content := a.respond thread, source := a.name, mtype := "TextMessage" }],
          m.source = "user" ∨ m.source ∈ g.participants.map Agent.name := by
        intro m hm
        rcases List.mem_append.mp hm with hm | hm
        · exact hP m hm
        · rw [List.mem_singleton] at hm
          subst hm
          exact Or.inr hmem
      have hh2 : (thread ++
          [({ content := a.respond thread, source := a.name,
              mtype := "TextMessage" } : LlmMessage)]).head? = some m0 := by
        cases thread with
        | nil => simp at hh
        | cons c cs => simpa using hh
      by_cases ht : term (thread ++
          [({ content := a.respond thread, source := a.name,
              mtype := "TextMessage" } : LlmMessage)]) = true
      · rw [if_pos ht] at h
        injection h with h
        subst h
        exact ⟨hP2, hh2, ht⟩
      · rw [if_neg ht] at h
        exact ih _ res h hh2 hP2

/-- C4: whenever a group-chat run returns a `TaskResult`, the result carries
the conversation history of the task (starting with the task message), every
message after the task was spoken by a member of the fixed participant set
(chosen by the model-based selection or the custom selection function), and
the run ended only because the termination condition held on the history. -/
theorem selector_run_spec (g : SelectorGroupChat) (term : List LlmMessage → Bool)
    (fuel : Nat) (task : String) (res : TaskResult)
    (h : selector_run g term fuel task = some res) :
    (∀ m ∈ res.messages, m.source = "user" ∨ m.source ∈ g.participants.map Agent.name) ∧
    res.messages.head? = some (userMessage task) ∧
    term res.messages = true := by
  refine selectorLoop_invariant g term (userMessage task) fuel [userMessage task] res h rfl ?_
  intro m hm
  rw [List.mem_singleton] at hm
  subst hm
  exact Or.inl rfl

/-- Witness for C4: the concrete two-agent selector run terminates with all
speakers in the participant set and the termination condition met. -/
theorem selector_run_spec_witness :
    (∀ m ∈ resW.messages,
      m.source = "user" ∨ m.source ∈ gW.participants.map Agent.name) ∧
    resW.messages.head? = some (userMessage "task") ∧
    termW resW.messages = true :=
  selector_run_spec gW termW 5 "task" resW rfl

/-- Chain invariant: with the notebook's planning selector installed, the
run never appends a non-planning message directly after another non-planning
message. -/
theorem selectorLoop_chain (g : SelectorGroupChat) (p : String)
    (term : List LlmMessage → Bool)
    (hsel : g.selector_func = some (planning_selector p)) :
    ∀ (fuel : Nat) (thread : List LlmMessage) (res : TaskResult),
      selectorLoop g term fuel thread = some res →
      List.Chain' (fun m1 m2 => m1.source = p ∨ m2.source = p) thread →
      List.Chain' (fun m1 m2 => m1.source = p ∨ m2.source = p) res.messages := by
  intro fuel
  induction fuel with
  | zero =>
    intro thread res h
    simp [selectorLoop] at h
  | succ fuel ih =>
    intro thread res h hc
    cases hs : selectSpeaker g thread with
    | none => simp [selectorLoop, hs] at h
    | some a =>
      simp only [selectorLoop, hs] at h
      have hc2 : List.Chain' (fun m1 m2 => m1.source = p ∨ m2.source = p)
          (thread ++ [({ content := a.respond thread, source := a.name,
                         mtype := "TextMessage" } : LlmMessage)]) := by
        rw [List.chain'_append]
        refine ⟨hc, List.chain'_singleton _, ?_⟩
        intro x hx y hy
        simp only [List.head?_cons, Option.mem_def, Option.some.injEq] at hy
        subst hy
        by_cases hxp : x.source = p
        · exact Or.inl hxp
        · have hlast : thread.getLast? = some x := hx
          have hps : planning_selector p thread = some p := by
            simp [planning_selector, hlast, hxp]
          rw [selectSpeaker_custom_some hsel hps] at hs
          exact Or.inr ((findAgent_eq_some hs).2)
      by_cases ht : term (thread ++
          [({ content := a.respond thread, source := a.name,
              mtype := "TextMessage" } : LlmMessage)]) = true
      · rw [if_pos ht] at h
        injection h with h
        subst h
        exact hc2
      · rw [if_neg ht] at h
        exact ih _ res h hc2

/-- C8: with the notebook's `selector_func` installed (select the planning
agent whenever the last message is from another source, otherwise `None`),
every returned conversation history has the planning agent speaking
immediately after every message from any other source (no two consecutive
non-planning messages), and a `None` return falls back to the default
model-based selection. -/
theorem planning_speaks_after_others (g : SelectorGroupChat) (p : String)
    (term : List LlmMessage → Bool) (fuel : Nat) (task : String) (res : TaskResult)
    (hsel : g.selector_func = some (planning_selector p))
    (hrun : selector_run g term fuel task = some res) :
    List.Chain' (fun m1 m2 => m1.source = p ∨ m2.source = p) res.messages ∧
    (∀ thread, planning_selector p thread = none →
      selectSpeaker g thread = defaultSelect g thread) := by
  refine ⟨selectorLoop_chain g p term hsel fuel [userMessage task] res hrun
      (List.chain'_singleton _), ?_⟩
  intro thread hnone
  exact selectSpeaker_custom_none hsel hnone

/-- Witness for C8: in the concrete run, the planning agent speaks right
after the user message, the web-search agent only ever follows the planning
agent, and the `None` fallback clause holds. -/
theorem planning_speaks_after_others_witness :
    List.Chain' (fun m1 m2 =>
      m1.source = "PlanningAgent" ∨ m2.source = "PlanningAgent") resW.messages ∧
    (∀ thread, planning_selector "PlanningAgent" thread = none →
      selectSpeaker gW thread = defaultSelect gW thread) :=
  planning_speaks_after_others gW "PlanningAgent" termW 5 "task" resW rfl rfl

/-- Witness for C1: the concrete assistant agent round-trips through
`save_state`/`load_state` on a fresh instance. -/
theorem save_load_restores_context_witness :
    agent_load_state (clearedAgent agentW) (agent_save_state agentW) = agentW :=
  (save_load_restores_context agentW "q" teamW).1

/-- Witness for C2: on a concrete fresh executor, the assigned variable is
still printable with exit code 0 by a later call. -/
theorem executor_session_until_restart_witness :
    (execute_code_blocks (runProgs (execute_code_blocks ⟨0, [], [], []⟩
      [PyStmt.assign "x" "abcdefg"]).1 []) [PyStmt.printVar "x"]).2.exit_code = 0 :=
  (executor_session_until_restart ⟨0, [], [], []⟩ "x" "abcdefg" []).2.1

/-- Witness for C6: a concretely written remote file lands in the local
working directory with the written contents after `download_files`. -/
theorem remote_write_download_roundtrip_witness :
    lookupAssoc (download_files (execute_code_blocks ⟨0, [], [], []⟩
      [PyStmt.writeFile "out.txt" "data"]).1 ["out.txt"]).workDir "out.txt" =
      some "data" :=
  (remote_write_download_roundtrip ⟨0, [], [], []⟩ "out.txt" "data").2.2
